import Mathlib

/-!
Shallow embedding of the safety-critical core of the adaptive four-way
signalized intersection controller (traffic-controller repository), together
with proofs about its timing enforcer, adaptive engine, signal state machine,
conflict monitor and preemption manager.

All times are embedded as rationals; the Python floats in the source are used
only for exact small decimal constants (e.g. 2.5, 0.05), so rational
arithmetic is faithful to the computations the claims are about.
-/

namespace TrafficCtl

/-- Cardinal directions for the four approaches (config.Direction). -/
inductive Direction
  | north
  | south
  | east
  | west
deriving DecidableEq, Repr

/-- Lane kinds (config.LaneType). -/
inductive LaneType
  | THROUGH
  | LEFT_TURN
deriving DecidableEq, Repr

/-- Display states for a single signal head (models.signal.SignalState). -/
inductive SignalState
  | RED
  | GREEN
  | YELLOW
  | GREEN_ARROW
  | YELLOW_ARROW
  | FLASHING_YELLOW
  | ALL_RED
  | DARK
  | WALK
  | PED_CLEARANCE
  | DONT_WALK
deriving DecidableEq, Repr

/-- Phase kinds (models.signal.PhaseType). -/
inductive PhaseType
  | THROUGH
  | LEFT_TURN
deriving DecidableEq, Repr

/-- Sub-states within a single phase (models.signal.PhaseStep). -/
inductive PhaseStep
  | GREEN
  | FLASHING_YELLOW
  | YELLOW
  | ALL_RED
deriving DecidableEq, Repr

/-- Safety-critical timing limits (config.TimingConstraints). -/
structure TimingConstraints where
  min_green_s : ℚ
  max_green_s : ℚ
  yellow_clearance_s : ℚ
  all_red_clearance_s : ℚ
  startup_lost_time_s : ℚ
  min_protected_left_green_s : ℚ
  max_protected_left_green_s : ℚ
  left_turn_queue_threshold : ℕ
  min_walk_s : ℚ
  ped_clearance_speed_ft_per_s : ℚ
  default_crosswalk_distance_ft : ℚ
  min_cycle_s : ℚ
  max_cycle_s : ℚ
  default_cycle_s : ℚ
deriving DecidableEq, Repr

/-- The default values of config.TimingConstraints. -/
def defaultTiming : TimingConstraints where
  min_green_s := 7
  max_green_s := 60
  yellow_clearance_s := 4
  all_red_clearance_s := 5/2
  startup_lost_time_s := 2
  min_protected_left_green_s := 8
  max_protected_left_green_s := 25
  left_turn_queue_threshold := 3
  min_walk_s := 7
  ped_clearance_speed_ft_per_s := 7/2
  default_crosswalk_distance_ft := 48
  min_cycle_s := 45
  max_cycle_s := 150
  default_cycle_s := 90

/-- Flashing DONT WALK duration derived from crosswalk distance
(config.TimingConstraints.ped_clearance_s). -/
def TimingConstraints.ped_clearance_s (c : TimingConstraints) : ℚ :=
  c.default_crosswalk_distance_ft / c.ped_clearance_speed_ft_per_s

/-- A single traffic phase (models.signal.Phase). -/
structure Phase where
  phase_id : ℕ
  phase_type : PhaseType
  served_directions : List Direction
  is_left_turn : Bool
  green_time_s : ℚ
  yellow_time_s : ℚ
  all_red_time_s : ℚ
  walk_time_s : ℚ
  ped_clearance_time_s : ℚ
  use_protected_left : Bool
deriving DecidableEq, Repr

/-- Total time a phase occupies: green + yellow + all-red
(models.signal.Phase.total_phase_time_s). -/
def Phase.total_phase_time_s (p : Phase) : ℚ :=
  p.green_time_s + p.yellow_time_s + p.all_red_time_s

/-- The standard 4-phase ring for a 4-way intersection
(models.signal.PhaseRing.create_standard_4way). -/
def create_standard_4way (timing : TimingConstraints) : List Phase :=
  [ { phase_id := 1
      phase_type := PhaseType.LEFT_TURN
      served_directions := [Direction.north, Direction.south]
      is_left_turn := true
      green_time_s := timing.min_protected_left_green_s
      yellow_time_s := timing.yellow_clearance_s
      all_red_time_s := timing.all_red_clearance_s
      walk_time_s := 0
      ped_clearance_time_s := 0
      use_protected_left := false },
    { phase_id := 2
      phase_type := PhaseType.THROUGH
      served_directions := [Direction.north, Direction.south]
      is_left_turn := false
      green_time_s := timing.min_green_s
      yellow_time_s := timing.yellow_clearance_s
      all_red_time_s := timing.all_red_clearance_s
      walk_time_s := timing.min_walk_s
      ped_clearance_time_s := timing.ped_clearance_s
      use_protected_left := false },
    { phase_id := 3
      phase_type := PhaseType.LEFT_TURN
      served_directions := [Direction.east, Direction.west]
      is_left_turn := true
      green_time_s := timing.min_protected_left_green_s
      yellow_time_s := timing.yellow_clearance_s
      all_red_time_s := timing.all_red_clearance_s
      walk_time_s := 0
      ped_clearance_time_s := 0
      use_protected_left := false },
    { phase_id := 4
      phase_type := PhaseType.THROUGH
      served_directions := [Direction.east, Direction.west]
      is_left_turn := false
      green_time_s := timing.min_green_s
      yellow_time_s := timing.yellow_clearance_s
      all_red_time_s := timing.all_red_clearance_s
      walk_time_s := timing.min_walk_s
      ped_clearance_time_s := timing.ped_clearance_s
      use_protected_left := false } ]

/-!
## Timing enforcer (timing/constraints.py)

The Python enforcer mutates the phase in place; here it is the corresponding
pure function on `Phase`, applying the updates in the same order as the
source: clamp green, overwrite yellow and all-red, then (for through phases)
raise walk to the minimum, overwrite pedestrian clearance, and extend green
to cover walk + pedestrian clearance.
-/

/-- TimingEnforcer.enforce. -/
def enforce (c : TimingConstraints) (p : Phase) : Phase :=
  let min_g := if p.is_left_turn then c.min_protected_left_green_s else c.min_green_s
  let max_g := if p.is_left_turn then c.max_protected_left_green_s else c.max_green_s
  let g1 := max min_g (min max_g p.green_time_s)
  let p1 := { p with
    green_time_s := g1
    yellow_time_s := c.yellow_clearance_s
    all_red_time_s := c.all_red_clearance_s }
  if p.is_left_turn then
    p1
  else
    let w := max c.min_walk_s p.walk_time_s
    let pc := c.ped_clearance_s
    let min_ped_green := w + pc
    { p1 with
      walk_time_s := w
      ped_clearance_time_s := pc
      green_time_s := if g1 < min_ped_green then min_ped_green else g1 }

/-- Fixed (non-green) time of a list of phases: sum of yellow + all-red. -/
def fixedTime (ps : List Phase) : ℚ :=
  (ps.map (fun p => p.yellow_time_s + p.all_red_time_s)).sum

/-- Total cycle time of a list of phases. -/
def totalCycleTime (ps : List Phase) : ℚ :=
  (ps.map Phase.total_phase_time_s).sum

/-- Scale every green by the ratio and re-enforce each phase (the loop body
shared by TimingEnforcer._extend_to_minimum and _reduce_to_maximum). -/
def scaleGreens (c : TimingConstraints) (ratio : ℚ) (ps : List Phase) : List Phase :=
  ps.map (fun p => enforce c { p with green_time_s := p.green_time_s * ratio })

/-- TimingEnforcer._extend_to_minimum. -/
def extend_to_minimum (c : TimingConstraints) (ps : List Phase) (current_total : ℚ) :
    List Phase :=
  let fixed_time := fixedTime ps
  let green_time := current_total - fixed_time
  let target_green := c.min_cycle_s - fixed_time
  if green_time ≤ 0 then ps else scaleGreens c (target_green / green_time) ps

/-- TimingEnforcer._reduce_to_maximum. -/
def reduce_to_maximum (c : TimingConstraints) (ps : List Phase) (current_total : ℚ) :
    List Phase :=
  let fixed_time := fixedTime ps
  let green_time := current_total - fixed_time
  let target_green := c.max_cycle_s - fixed_time
  if green_time ≤ 0 then ps else scaleGreens c (target_green / green_time) ps

/-- TimingEnforcer.enforce_cycle. -/
def enforce_cycle (c : TimingConstraints) (ps : List Phase) : List Phase :=
  let ps1 := ps.map (enforce c)
  let total := totalCycleTime ps1
  if total < c.min_cycle_s then extend_to_minimum c ps1 total
  else if c.max_cycle_s < total then reduce_to_maximum c ps1 total
  else ps1

/-- Clamping to an interval is idempotent, with no assumption relating the
two bounds. -/
theorem clamp_idem (a b g : ℚ) :
    max a (min b (max a (min b g))) = max a (min b g) := by
  rw [min_max_distrib_left, ← min_assoc, min_self, ← max_assoc,
    max_eq_left (min_le_right b a)]

end TrafficCtl

namespace TrafficCtl

/-!
## Signal state machine (models/signal.py)

The Python SignalController mutates itself on tick/preemption calls; here the
controller state is a record and each method is a function from state to
state. `time.monotonic()` readings in the source become an explicit `now`
argument. The four signal heads (a dict keyed by Direction in the source)
become a four-field record.
-/

/-- Display state for one direction (models.signal.SignalHead, without the
redundant direction field). -/
structure SignalHead where
  vehicle_signal : SignalState
  left_turn_signal : SignalState
  pedestrian_signal : SignalState
deriving DecidableEq, Repr

/-- The dict Direction → SignalHead of the source. -/
structure SignalHeads where
  north : SignalHead
  south : SignalHead
  east : SignalHead
  west : SignalHead
deriving DecidableEq, Repr

def SignalHeads.get (hs : SignalHeads) : Direction → SignalHead
  | Direction.north => hs.north
  | Direction.south => hs.south
  | Direction.east => hs.east
  | Direction.west => hs.west

def SignalHeads.set (hs : SignalHeads) (d : Direction) (h : SignalHead) : SignalHeads :=
  match d with
  | Direction.north => { hs with north := h }
  | Direction.south => { hs with south := h }
  | Direction.east => { hs with east := h }
  | Direction.west => { hs with west := h }

/-- The reset value of a head: red / red / DONT_WALK. -/
def redHead : SignalHead :=
  { vehicle_signal := SignalState.RED
    left_turn_signal := SignalState.RED
    pedestrian_signal := SignalState.DONT_WALK }

/-- All four heads at red / DONT_WALK (the default every application pass
starts from). -/
def allRedHeads : SignalHeads := ⟨redHead, redHead, redHead, redHead⟩

/-- How SignalController._apply_signals_for_current_state updates the head of
one served direction. -/
def served_head (p : Phase) (step : PhaseStep) (h : SignalHead) : SignalHead :=
  match step with
  | PhaseStep.GREEN =>
    if p.is_left_turn then
      if p.use_protected_left then
        { h with left_turn_signal := SignalState.GREEN_ARROW }
      else
        { h with left_turn_signal := SignalState.FLASHING_YELLOW }
    else
      { h with
        vehicle_signal := SignalState.GREEN
        left_turn_signal := SignalState.FLASHING_YELLOW
        pedestrian_signal := SignalState.WALK }
  | PhaseStep.FLASHING_YELLOW =>
    { h with left_turn_signal := SignalState.FLASHING_YELLOW }
  | PhaseStep.YELLOW =>
    if p.is_left_turn then
      { h with left_turn_signal := SignalState.YELLOW_ARROW }
    else
      { h with
        vehicle_signal := SignalState.YELLOW
        left_turn_signal := SignalState.RED
        pedestrian_signal := SignalState.PED_CLEARANCE }
  | PhaseStep.ALL_RED => h

/-- SignalController._apply_signals_for_current_state as a pure function of
the current phase and step: default all heads to red, return early on
ALL_RED, otherwise update each served direction in turn. -/
def apply_signals (p : Phase) (step : PhaseStep) : SignalHeads :=
  if step = PhaseStep.ALL_RED then allRedHeads
  else p.served_directions.foldl (fun hs d => hs.set d (served_head p step (hs.get d))) allRedHeads

/-- The runtime state of models.signal.SignalController. -/
structure SignalController where
  phases : List Phase
  current_phase_idx : ℕ
  current_step : PhaseStep
  step_start_time : ℚ
  cycle_count : ℕ
  is_preempted : Bool
  preemption_direction : Option Direction
  signal_heads : SignalHeads
deriving DecidableEq, Repr

/-- Placeholder for an out-of-range phase access (the Python list would raise;
reachable states keep the index in range, and this phase serves nothing). -/
def emptyPhase : Phase :=
  { phase_id := 0, phase_type := PhaseType.THROUGH, served_directions := []
    is_left_turn := false, green_time_s := 0, yellow_time_s := 0
    all_red_time_s := 0, walk_time_s := 0, ped_clearance_time_s := 0
    use_protected_left := false }

def SignalController.current_phase (s : SignalController) : Phase :=
  s.phases.getD s.current_phase_idx emptyPhase

/-- SignalController._current_step_duration; `none` encodes the infinite hold
during a preemption green. -/
def SignalController.current_step_duration (s : SignalController) : Option ℚ :=
  if s.is_preempted && s.current_step == PhaseStep.GREEN then none
  else
    some (match s.current_step with
      | PhaseStep.GREEN => s.current_phase.green_time_s
      | PhaseStep.FLASHING_YELLOW => s.current_phase.green_time_s
      | PhaseStep.YELLOW => s.current_phase.yellow_time_s
      | PhaseStep.ALL_RED => s.current_phase.all_red_time_s)

/-- Heads during a preemption hold: all red except vehicle green for the
preempted direction (SignalController._enter_preemption_phase). -/
def preemptionHeads (d : Direction) : SignalHeads :=
  allRedHeads.set d { redHead with vehicle_signal := SignalState.GREEN }

/-- SignalController._enter_preemption_phase. -/
def SignalController.enter_preemption_phase (now : ℚ) (s : SignalController) :
    SignalController :=
  let hs := match s.preemption_direction with
    | some d => preemptionHeads d
    | none => allRedHeads
  { s with signal_heads := hs, current_step := PhaseStep.GREEN, step_start_time := now }

/-- SignalController._advance_to_next_phase. -/
def SignalController.advance_to_next_phase (now : ℚ) (s : SignalController) :
    SignalController :=
  let prev_idx := s.current_phase_idx
  let idx := (prev_idx + 1) % s.phases.length
  let s1 := { s with
    current_phase_idx := idx
    current_step := PhaseStep.GREEN
    step_start_time := now }
  let s2 := { s1 with signal_heads := apply_signals s1.current_phase PhaseStep.GREEN }
  if idx = 0 ∧ prev_idx ≠ 0 then { s2 with cycle_count := s2.cycle_count + 1 } else s2

/-- SignalController._advance_step. In the source the GREEN branch tests
is_left_turn and use_protected_left but both arms set YELLOW; the identical
conditional is kept. -/
def SignalController.advance_step (now : ℚ) (s : SignalController) : SignalController :=
  match s.current_step with
  | PhaseStep.GREEN =>
    let next := if s.current_phase.is_left_turn && !s.current_phase.use_protected_left
      then PhaseStep.YELLOW else PhaseStep.YELLOW
    { s with
      current_step := next
      step_start_time := now
      signal_heads := apply_signals s.current_phase next }
  | PhaseStep.FLASHING_YELLOW =>
    { s with
      current_step := PhaseStep.YELLOW
      step_start_time := now
      signal_heads := apply_signals s.current_phase PhaseStep.YELLOW }
  | PhaseStep.YELLOW =>
    { s with
      current_step := PhaseStep.ALL_RED
      step_start_time := now
      signal_heads := apply_signals s.current_phase PhaseStep.ALL_RED }
  | PhaseStep.ALL_RED =>
    if s.is_preempted && s.preemption_direction.isSome then
      s.enter_preemption_phase now
    else
      s.advance_to_next_phase now

/-- Membership in the green_directions set of
SignalController._check_conflicts / ConflictMonitor.check: vehicle green or
yellow, or a protected left arrow. -/
def greenDirMem (hs : SignalHeads) (d : Direction) : Bool :=
  ((hs.get d).vehicle_signal == SignalState.GREEN) ||
  ((hs.get d).vehicle_signal == SignalState.YELLOW) ||
  ((hs.get d).left_turn_signal == SignalState.GREEN_ARROW)

/-- The four conflicting pairs (safety.conflict.CONFLICTING_PAIRS and
SignalController._check_conflicts). -/
def conflicting_pairs : List (Direction × Direction) :=
  [(Direction.north, Direction.east), (Direction.north, Direction.west),
   (Direction.south, Direction.east), (Direction.south, Direction.west)]

/-- Whether some conflicting pair is simultaneously in green_directions. -/
def hasConflict (hs : SignalHeads) : Bool :=
  conflicting_pairs.any (fun q => greenDirMem hs q.1 && greenDirMem hs q.2)

/-- SignalController._enter_fault_mode: force every head to ALL_RED. -/
def SignalController.enter_fault_mode (s : SignalController) : SignalController :=
  let fh : SignalHead :=
    { vehicle_signal := SignalState.ALL_RED
      left_turn_signal := SignalState.ALL_RED
      pedestrian_signal := SignalState.DONT_WALK }
  { s with signal_heads := ⟨fh, fh, fh, fh⟩ }

/-- SignalController._check_conflicts (callback to the observer dropped). -/
def SignalController.check_conflicts (s : SignalController) : SignalController :=
  if hasConflict s.signal_heads then s.enter_fault_mode else s

/-- SignalController.tick with an explicit monotonic time. -/
def SignalController.tick (now : ℚ) (s : SignalController) : SignalController :=
  let s1 := match s.current_step_duration with
    | none => s
    | some dur => if dur ≤ now - s.step_start_time then s.advance_step now else s
  s1.check_conflicts

/-- SignalController.request_preemption (the `time.monotonic()` call in the
source becomes the explicit call time `now`). The source first records the
preemption and then, when currently green or flashing yellow, forces the step
to yellow and re-applies the signals; neither of those reads the preemption
fields, so the two assignments are merged into each branch here. -/
def SignalController.request_preemption (now : ℚ) (d : Direction)
    (s : SignalController) : SignalController :=
  if s.is_preempted then s
  else if s.current_step = PhaseStep.GREEN ∨ s.current_step = PhaseStep.FLASHING_YELLOW then
    { s with
      is_preempted := true
      preemption_direction := some d
      current_step := PhaseStep.YELLOW
      step_start_time := now
      signal_heads := apply_signals s.current_phase PhaseStep.YELLOW }
  else
    { s with is_preempted := true, preemption_direction := some d }

/-- SignalController.clear_preemption. -/
def SignalController.clear_preemption (s : SignalController) : SignalController :=
  { s with is_preempted := false, preemption_direction := none }

/-- SignalController.__post_init__: fresh controller on a phase ring, with
the initial signals applied. -/
def initController (phases : List Phase) (t0 : ℚ) : SignalController :=
  { phases := phases
    current_phase_idx := 0
    current_step := PhaseStep.GREEN
    step_start_time := t0
    cycle_count := 0
    is_preempted := false
    preemption_direction := none
    signal_heads := apply_signals (phases.getD 0 emptyPhase) PhaseStep.GREEN }

/-- External stimuli a SignalController can receive: a tick, a preemption
request, or a preemption clear. -/
inductive Ev
  | tick (now : ℚ)
  | request (now : ℚ) (d : Direction)
  | clearPre
deriving DecidableEq, Repr

def stepEv : Ev → SignalController → SignalController
  | Ev.tick now, s => s.tick now
  | Ev.request now d, s => s.request_preemption now d
  | Ev.clearPre, s => s.clear_preemption

def runEv (s : SignalController) (evs : List Ev) : SignalController :=
  evs.foldl (fun t e => stepEv e t) s

/-- A phase serves a legal set of directions: either of the two opposing
pairs (or nothing, for the out-of-range placeholder). -/
def phaseOK (p : Phase) : Prop :=
  p.served_directions = [] ∨
  p.served_directions = [Direction.north, Direction.south] ∨
  p.served_directions = [Direction.east, Direction.west]

instance : DecidablePred phaseOK := fun p => by
  unfold phaseOK; infer_instance

/-- States of the controller reachable by any sequence of ticks, preemption
requests and preemption clears, starting from a fresh controller over a ring
whose phases all serve legal direction sets (the standard 4-way ring in
particular). -/
inductive Reachable : SignalController → Prop
  | init (phases : List Phase) (t0 : ℚ) (h : ∀ p ∈ phases, phaseOK p) :
      Reachable (initController phases t0)
  | step (e : Ev) (s : SignalController) : Reachable s → Reachable (stepEv e s)

/-- Inductive invariant: the ring is legal and the heads are exactly what the
pure signal application gives for the current phase and step, or a preemption
hold display (which only exists at step GREEN). -/
def GoodState (s : SignalController) : Prop :=
  (∀ p ∈ s.phases, phaseOK p) ∧
  (s.signal_heads = apply_signals s.current_phase s.current_step ∨
    ∃ d, s.signal_heads = preemptionHeads d ∧ s.current_step = PhaseStep.GREEN)

/-- A direction whose head actually displays a movement grant: vehicle green
or protected left arrow (vehicle yellow is clearance, not a grant). -/
def greenGrant (hs : SignalHeads) (d : Direction) : Bool :=
  ((hs.get d).vehicle_signal == SignalState.GREEN) ||
  ((hs.get d).left_turn_signal == SignalState.GREEN_ARROW)

/-- Some head displays a movement grant. -/
def hasGreenGrant (hs : SignalHeads) : Bool :=
  greenGrant hs Direction.north || greenGrant hs Direction.south ||
  greenGrant hs Direction.east || greenGrant hs Direction.west

/-!
## Conflict monitor (safety/conflict.py)

The independent watchdog. Its check reads the controller's signal heads,
computes the same green_directions set, and drives the fault latch; on a
fresh conflict it forces the controller into fault mode.
-/

/-- The mutable fields of safety.conflict.ConflictMonitor. -/
structure ConflictMonitor where
  fault_active : Bool
  conflict_count : ℕ
  consecutive_clean : ℕ
  clean_checks_to_clear : ℕ
deriving DecidableEq, Repr

/-- ConflictMonitor.check: returns the updated monitor, the (possibly
fault-forced) controller, and the healthy flag. -/
def ConflictMonitor.check (m : ConflictMonitor) (sc : SignalController) :
    ConflictMonitor × SignalController × Bool :=
  if hasConflict sc.signal_heads then
    -- _on_conflict_detected: count, reset the clean streak, latch, and force
    -- fault mode on the controller when latching freshly.
    let m1 := { m with
      conflict_count := m.conflict_count + 1
      consecutive_clean := 0
      fault_active := true }
    if m.fault_active then (m1, sc, false) else (m1, sc.enter_fault_mode, false)
  else if m.fault_active then
    let cc := m.consecutive_clean + 1
    if m.clean_checks_to_clear ≤ cc then
      ({ m with fault_active := false, consecutive_clean := 0 }, sc, true)
    else
      ({ m with consecutive_clean := cc }, sc, true)
  else (m, sc, true)

/-- Iterated monitor checks against a fixed controller (the clean path never
modifies the controller, so a run of clean checks is this iteration). -/
def checkIter (m : ConflictMonitor) (sc : SignalController) : ℕ → ConflictMonitor
  | 0 => m
  | n + 1 => ((checkIter m sc n).check sc).1

/-!
## Preemption manager (safety/preemption.py)
-/

/-- safety.preemption.PreemptionEvent. -/
structure PreemptionEvent where
  direction : Direction
  requested_at : ℚ
  activated_at : Option ℚ
  cleared_at : Option ℚ
  min_hold_s : ℚ
deriving DecidableEq, Repr

/-- PreemptionEvent.hold_elapsed_s at an explicit current time. -/
def PreemptionEvent.hold_elapsed_s (now : ℚ) (ev : PreemptionEvent) : ℚ :=
  match ev.activated_at with
  | none => 0
  | some t => now - t

/-- The mutable fields of safety.preemption.PreemptionManager. -/
structure PreemptionManager where
  pending : List PreemptionEvent
  active_event : Option PreemptionEvent
  history : List PreemptionEvent
  max_hold_s : ℚ
deriving DecidableEq, Repr

/-- PreemptionManager._activate. -/
def PreemptionManager.activate (now : ℚ) (ev : PreemptionEvent)
    (m : PreemptionManager) (sc : SignalController) :
    PreemptionManager × SignalController :=
  ({ m with active_event := some { ev with activated_at := some now } },
    sc.request_preemption now ev.direction)

/-- PreemptionManager.request. -/
def PreemptionManager.request (now : ℚ) (d : Direction) (min_hold_s : ℚ)
    (m : PreemptionManager) (sc : SignalController) :
    PreemptionManager × SignalController :=
  let ev : PreemptionEvent :=
    { direction := d, requested_at := now, activated_at := none
      cleared_at := none, min_hold_s := min_hold_s }
  match m.active_event with
  | some _ => ({ m with pending := m.pending ++ [ev] }, sc)
  | none => m.activate now ev sc

/-- PreemptionManager.clear. -/
def PreemptionManager.clear (now : ℚ) (m : PreemptionManager)
    (sc : SignalController) : PreemptionManager × SignalController :=
  match m.active_event with
  | none => (m, sc)
  | some ev =>
    let m1 := { m with
      active_event := none
      history := m.history ++ [{ ev with cleared_at := some now }] }
    let sc1 := sc.clear_preemption
    match m1.pending with
    | [] => (m1, sc1)
    | e0 :: rest => PreemptionManager.activate now e0 { m1 with pending := rest } sc1

/-- PreemptionManager.tick. -/
def PreemptionManager.tick (now : ℚ) (m : PreemptionManager)
    (sc : SignalController) : PreemptionManager × SignalController :=
  match m.active_event with
  | none =>
    match m.pending with
    | [] => (m, sc)
    | e0 :: rest => PreemptionManager.activate now e0 { m with pending := rest } sc
  | some ev =>
    if m.max_hold_s ≤ ev.hold_elapsed_s now then PreemptionManager.clear now m sc
    else (m, sc)

/-!
## Intersection model and adaptive timing engine
(models/intersection.py, timing/adaptive.py)
-/

/-- models.intersection.Lane (live arrival-rate estimation dropped: the
claims only involve queue counts and saturation flow). -/
structure Lane where
  direction : Direction
  lane_type : LaneType
  saturation_flow : ℚ
  queue_count : ℕ
deriving DecidableEq, Repr

/-- Lane.saturation_flow_per_sec. -/
def Lane.saturation_flow_per_sec (l : Lane) : ℚ :=
  l.saturation_flow / 3600

/-- Lane.green_time_to_clear. -/
def Lane.green_time_to_clear (l : Lane) (startup_lost_time_s : ℚ) : ℚ :=
  if l.queue_count ≤ 0 then 0
  else (l.queue_count : ℚ) / l.saturation_flow_per_sec + startup_lost_time_s

/-- models.intersection.Approach (crosswalk data dropped: unused by the
claims, the enforcer takes pedestrian clearance from the constraints). -/
structure Approach where
  direction : Direction
  through_lane : Lane
  left_turn_lane : Lane
deriving DecidableEq, Repr

/-- models.intersection.Intersection: the mapping direction → approach. -/
structure Intersection where
  approaches : Direction → Approach

def Intersection.approach (i : Intersection) (d : Direction) : Approach :=
  i.approaches d

/-- Intersection.create_standard with the default saturation flows (1800
through, 1600 left) and the given queue counts. -/
def create_standard_intersection (q : Direction → LaneType → ℕ) : Intersection :=
  { approaches := fun d =>
      { direction := d
        through_lane :=
          { direction := d, lane_type := LaneType.THROUGH
            saturation_flow := 1800, queue_count := q d LaneType.THROUGH }
        left_turn_lane :=
          { direction := d, lane_type := LaneType.LEFT_TURN
            saturation_flow := 1600, queue_count := q d LaneType.LEFT_TURN } } }

/-- timing.adaptive.PhaseDemand. -/
structure PhaseDemand where
  phase_id : ℕ
  total_queue : ℕ
  ideal_green_s : ℚ
  degree_of_saturation : ℚ
  needs_protected_left : Bool
deriving DecidableEq, Repr

/-- AdaptiveTimingEngine.smoothing_alpha default. -/
def smoothing_alpha : ℚ := 3/5

/-- The per-phase body of AdaptiveTimingEngine._compute_demands. In the
source the left-turn running total equals the phase total queue for left-turn
phases (the same lanes are summed), so needs_protected_left is computed from
the total queue. -/
def compute_phase_demand (c : TimingConstraints) (inter : Intersection)
    (prev_ds : ℕ → Option ℚ) (p : Phase) : PhaseDemand :=
  let lanes := p.served_directions.map (fun d =>
    if p.is_left_turn then (inter.approach d).left_turn_lane
    else (inter.approach d).through_lane)
  let total_queue := (lanes.map Lane.queue_count).sum
  let max_ideal_green :=
    (lanes.map (fun l => l.green_time_to_clear c.startup_lost_time_s)).foldl max 0
  let first_dir := p.served_directions.headD Direction.north
  let sat_sec := if p.is_left_turn
    then ((inter.approach first_dir).left_turn_lane).saturation_flow_per_sec
    else ((inter.approach first_dir).through_lane).saturation_flow_per_sec
  let ds := (total_queue : ℚ) / max 1 (p.green_time_s * sat_sec)
  let prev := (prev_ds p.phase_id).getD ds
  let smoothed := smoothing_alpha * ds + (1 - smoothing_alpha) * prev
  { phase_id := p.phase_id
    total_queue := total_queue
    ideal_green_s := max_ideal_green
    degree_of_saturation := smoothed
    needs_protected_left :=
      p.is_left_turn && decide (c.left_turn_queue_threshold ≤ total_queue) }

/-- AdaptiveTimingEngine._compute_demands, threading the engine's _prev_ds
store through the phases. -/
def compute_demands (c : TimingConstraints) (inter : Intersection)
    (prev_ds : ℕ → Option ℚ) : List Phase → List PhaseDemand × (ℕ → Option ℚ)
  | [] => ([], prev_ds)
  | p :: rest =>
    let dm := compute_phase_demand c inter prev_ds p
    let prev1 := fun pid =>
      if pid = p.phase_id then some dm.degree_of_saturation else prev_ds pid
    let tail := compute_demands c inter prev1 rest
    (dm :: tail.1, tail.2)

/-- AdaptiveTimingEngine._compute_cycle_length. -/
def compute_cycle_length (c : TimingConstraints) (demands : List PhaseDemand) : ℚ :=
  let total_lost :=
    (demands.length : ℚ) * (c.yellow_clearance_s + c.all_red_clearance_s)
  let avg_ds := (demands.map PhaseDemand.degree_of_saturation).sum /
    ((max 1 demands.length : ℕ) : ℚ)
  let y := min (9/10) avg_ds
  let cycle := if y < 1/20 then c.min_cycle_s
    else (3/2 * total_lost + 5) / (1 - y)
  max c.min_cycle_s (min c.max_cycle_s cycle)

/-- AdaptiveTimingEngine._allocate_green_splits, as the association list
phase_id → green. -/
def allocate_green_splits (c : TimingConstraints) (demands : List PhaseDemand)
    (cycle_length : ℚ) (phases : List Phase) : List (ℕ × ℚ) :=
  let total_fixed := fixedTime phases
  let available_green := max 0 (cycle_length - total_fixed)
  let weights := demands.map (fun dm =>
    let w0 := if dm.total_queue = 0 then c.min_green_s
      else max c.min_green_s dm.ideal_green_s
    let w := match phases.find? (fun p => p.phase_id == dm.phase_id) with
      | some p =>
        if p.is_left_turn && !dm.needs_protected_left then
          c.min_protected_left_green_s * (1/2)
        else w0
      | none => w0
    (dm.phase_id, w))
  let total_weight : ℚ := (weights.map Prod.snd).sum
  let total_weight := if total_weight ≤ 0 then 1 else total_weight
  weights.map (fun pw => (pw.1, pw.2 / total_weight * available_green))

/-- AdaptiveTimingEngine.apply_plan: write greens and left-turn modes into
the phases, then enforce the whole cycle. -/
def apply_plan (c : TimingConstraints) (demands : List PhaseDemand)
    (greens : List (ℕ × ℚ)) (phases : List Phase) : List Phase :=
  let phases1 := phases.map (fun p =>
    let p1 := match greens.find? (fun g => g.1 == p.phase_id) with
      | some g => { p with green_time_s := g.2 }
      | none => p
    match demands.find? (fun dm => dm.phase_id == p.phase_id) with
    | some dm => { p1 with use_protected_left := dm.needs_protected_left }
    | none => p1)
  enforce_cycle c phases1

/-- One full cycle-boundary recomputation: compute_cycle_plan followed by
apply_plan. -/
def compute_and_apply (c : TimingConstraints) (inter : Intersection)
    (prev_ds : ℕ → Option ℚ) (phases : List Phase) : List Phase :=
  let dm := (compute_demands c inter prev_ds phases).1
  let cycle := compute_cycle_length c dm
  let greens := allocate_green_splits c dm cycle phases
  apply_plan c dm greens phases

/-- The green time the applied plan gives a phase id. -/
def phaseGreen (ps : List Phase) (pid : ℕ) : ℚ :=
  match ps.find? (fun p => p.phase_id == pid) with
  | some p => p.green_time_s
  | none => 0

/-- The demand total queue recorded for a phase id. -/
def demandQueue (ds : List PhaseDemand) (pid : ℕ) : ℕ :=
  match ds.find? (fun dm => dm.phase_id == pid) with
  | some dm => dm.total_queue
  | none => 0

/-- Phase 1 of the standard ring (N/S protected left) with a given green and
left-turn mode. -/
def srPhase1 (g : ℚ) (b : Bool) : Phase :=
  { phase_id := 1, phase_type := PhaseType.LEFT_TURN
    served_directions := [Direction.north, Direction.south], is_left_turn := true
    green_time_s := g, yellow_time_s := defaultTiming.yellow_clearance_s
    all_red_time_s := defaultTiming.all_red_clearance_s, walk_time_s := 0
    ped_clearance_time_s := 0, use_protected_left := b }

/-- Phase 2 of the standard ring (N/S through). -/
def srPhase2 (g : ℚ) (b : Bool) : Phase :=
  { phase_id := 2, phase_type := PhaseType.THROUGH
    served_directions := [Direction.north, Direction.south], is_left_turn := false
    green_time_s := g, yellow_time_s := defaultTiming.yellow_clearance_s
    all_red_time_s := defaultTiming.all_red_clearance_s
    walk_time_s := defaultTiming.min_walk_s
    ped_clearance_time_s := defaultTiming.ped_clearance_s, use_protected_left := b }

/-- Phase 3 of the standard ring (E/W protected left). -/
def srPhase3 (g : ℚ) (b : Bool) : Phase :=
  { phase_id := 3, phase_type := PhaseType.LEFT_TURN
    served_directions := [Direction.east, Direction.west], is_left_turn := true
    green_time_s := g, yellow_time_s := defaultTiming.yellow_clearance_s
    all_red_time_s := defaultTiming.all_red_clearance_s, walk_time_s := 0
    ped_clearance_time_s := 0, use_protected_left := b }

/-- Phase 4 of the standard ring (E/W through). -/
def srPhase4 (g : ℚ) (b : Bool) : Phase :=
  { phase_id := 4, phase_type := PhaseType.THROUGH
    served_directions := [Direction.east, Direction.west], is_left_turn := false
    green_time_s := g, yellow_time_s := defaultTiming.yellow_clearance_s
    all_red_time_s := defaultTiming.all_red_clearance_s
    walk_time_s := defaultTiming.min_walk_s
    ped_clearance_time_s := defaultTiming.ped_clearance_s, use_protected_left := b }

/-- The standard ring with arbitrary green times (as left by earlier adaptive
cycles; the default-constraint build is greens 8, 7, 8, 7). -/
def standardRingGreens (g1 g2 g3 g4 : ℚ) : List Phase :=
  [srPhase1 g1 false, srPhase2 g2 false, srPhase3 g3 false, srPhase4 g4 false]

/-- The queue profile refuting the total-queue form of adaptive
responsiveness: N/S through = 5+5 = 10 versus E/W through = 8+0 = 8, all
left queues zero. -/
def qcex : Direction → LaneType → ℕ := fun d lt =>
  match d, lt with
  | Direction.north, LaneType.THROUGH => 5
  | Direction.south, LaneType.THROUGH => 5
  | Direction.east, LaneType.THROUGH => 8
  | _, _ => 0

/-- The green clamp of the enforcer for left-turn phases under the default
constraints. -/
def clampL (g : ℚ) : ℚ := max 8 (min 25 g)

/-- The green clamp plus pedestrian extension of the enforcer for through
phases of the standard ring under the default constraints
(7 + 48/3.5 = 145/7). -/
def clampT (g : ℚ) : ℚ :=
  if max 7 (min 60 g) < 145/7 then 145/7 else max 7 (min 60 g)

/-- Lane.green_time_to_clear for a default-constraint lane with the given
saturation flow. -/
def laneClear (sat : ℚ) (n : ℕ) : ℚ :=
  if n ≤ 0 then 0 else (n : ℚ) / (sat / 3600) + 2

/-- The allocation weight of a left-turn phase of the standard ring
(permissive lefts get half the protected minimum). -/
def wL (pr : Bool) (tq : ℕ) (ig : ℚ) : ℚ :=
  if (true && !pr) = true then defaultTiming.min_protected_left_green_s * (1/2)
  else if tq = 0 then defaultTiming.min_green_s else max defaultTiming.min_green_s ig

/-- The allocation weight of a through phase of the standard ring. -/
def wT (pr : Bool) (tq : ℕ) (ig : ℚ) : ℚ :=
  if (false && !pr) = true then defaultTiming.min_protected_left_green_s * (1/2)
  else if tq = 0 then defaultTiming.min_green_s else max defaultTiming.min_green_s ig

/-- Total left-turn queue seen by phase 1 (N/S left). -/
def tqL1 (q : Direction → LaneType → ℕ) : ℕ :=
  q Direction.north LaneType.LEFT_TURN + (q Direction.south LaneType.LEFT_TURN + 0)

/-- Total through queue seen by phase 2 (N/S through). -/
def tqT2 (q : Direction → LaneType → ℕ) : ℕ :=
  q Direction.north LaneType.THROUGH + (q Direction.south LaneType.THROUGH + 0)

/-- Total left-turn queue seen by phase 3 (E/W left). -/
def tqL3 (q : Direction → LaneType → ℕ) : ℕ :=
  q Direction.east LaneType.LEFT_TURN + (q Direction.west LaneType.LEFT_TURN + 0)

/-- Total through queue seen by phase 4 (E/W through). -/
def tqT4 (q : Direction → LaneType → ℕ) : ℕ :=
  q Direction.east LaneType.THROUGH + (q Direction.west LaneType.THROUGH + 0)

/-- Ideal (clearance) green of phase 1. -/
def igL1 (q : Direction → LaneType → ℕ) : ℚ :=
  max (max 0 (laneClear 1600 (q Direction.north LaneType.LEFT_TURN)))
    (laneClear 1600 (q Direction.south LaneType.LEFT_TURN))

/-- Ideal (clearance) green of phase 2. -/
def igT2 (q : Direction → LaneType → ℕ) : ℚ :=
  max (max 0 (laneClear 1800 (q Direction.north LaneType.THROUGH)))
    (laneClear 1800 (q Direction.south LaneType.THROUGH))

/-- Ideal (clearance) green of phase 3. -/
def igL3 (q : Direction → LaneType → ℕ) : ℚ :=
  max (max 0 (laneClear 1600 (q Direction.east LaneType.LEFT_TURN)))
    (laneClear 1600 (q Direction.west LaneType.LEFT_TURN))

/-- Ideal (clearance) green of phase 4. -/
def igT4 (q : Direction → LaneType → ℕ) : ℚ :=
  max (max 0 (laneClear 1800 (q Direction.east LaneType.THROUGH)))
    (laneClear 1800 (q Direction.west LaneType.THROUGH))

/-- Protected-left decision of phase 1 (threshold 3). -/
def prL1 (q : Direction → LaneType → ℕ) : Bool := decide (3 ≤ tqL1 q)

/-- Protected-left decision of phase 3. -/
def prL3 (q : Direction → LaneType → ℕ) : Bool := decide (3 ≤ tqL3 q)

/-- The total allocation weight of the standard ring. -/
def srTW (q : Direction → LaneType → ℕ) : ℚ :=
  wL (prL1 q) (tqL1 q) (igL1 q) + (wT false (tqT2 q) (igT2 q) +
    (wL (prL3 q) (tqL3 q) (igL3 q) + (wT false (tqT4 q) (igT4 q) + 0)))

/-- The total weight with the division-by-zero guard of the source. -/
def srTWg (q : Direction → LaneType → ℕ) : ℚ :=
  if srTW q ≤ 0 then 1 else srTW q

/-- The available green of the allocated cycle for the standard ring. -/
def srAV (q : Direction → LaneType → ℕ) (prev : ℕ → Option ℚ) (g1 g2 g3 g4 : ℚ) : ℚ :=
  max 0 (compute_cycle_length defaultTiming
      (compute_demands defaultTiming (create_standard_intersection q) prev
        (standardRingGreens g1 g2 g3 g4)).1 -
    fixedTime (standardRingGreens g1 g2 g3 g4))

/-- The claimed Webster rule, with Y the true mean of the smoothed degrees
of saturation. -/
def cycle_length_webster (c : TimingConstraints) (demands : List PhaseDemand) : ℚ :=
  let total_lost :=
    (demands.length : ℚ) * (c.yellow_clearance_s + c.all_red_clearance_s)
  let y := min (9/10)
    ((demands.map PhaseDemand.degree_of_saturation).sum / (demands.length : ℚ))
  max c.min_cycle_s (min c.max_cycle_s
    (if y < 1/20 then c.min_cycle_s else (3/2 * total_lost + 5) / (1 - y)))

/-- C3: for through (non-left-turn) phases, after enforcement the green time
contains walk + pedestrian clearance, regardless of all input timings and of
the max-green bound. -/
theorem ped_containment (c : TimingConstraints) (p : Phase)
    (h : p.is_left_turn = false) :
    (enforce c p).walk_time_s + (enforce c p).ped_clearance_time_s ≤
      (enforce c p).green_time_s := by
  simp only [enforce, h, Bool.false_eq_true, if_false]
  split
  · exact le_refl _
  · exact le_of_not_lt (by assumption)

/-- C3 witness: a concrete through phase whose green must be extended past
max-green to contain the pedestrian interval. -/
theorem ped_containment_witness :
    (enforce defaultTiming
        { phase_id := 2, phase_type := PhaseType.THROUGH
          served_directions := [Direction.north, Direction.south]
          is_left_turn := false, green_time_s := 3, yellow_time_s := 1
          all_red_time_s := 1, walk_time_s := 55, ped_clearance_time_s := 0
          use_protected_left := false }).walk_time_s +
      (enforce defaultTiming
        { phase_id := 2, phase_type := PhaseType.THROUGH
          served_directions := [Direction.north, Direction.south]
          is_left_turn := false, green_time_s := 3, yellow_time_s := 1
          all_red_time_s := 1, walk_time_s := 55, ped_clearance_time_s := 0
          use_protected_left := false }).ped_clearance_time_s ≤
      (enforce defaultTiming
        { phase_id := 2, phase_type := PhaseType.THROUGH
          served_directions := [Direction.north, Direction.south]
          is_left_turn := false, green_time_s := 3, yellow_time_s := 1
          all_red_time_s := 1, walk_time_s := 55, ped_clearance_time_s := 0
          use_protected_left := false }).green_time_s :=
  ped_containment defaultTiming _ rfl

/-- C4: the timing enforcer is idempotent on every phase, left-turn or
through, whatever the starting timing fields. -/
theorem enforce_idempotent (c : TimingConstraints) (p : Phase) :
    enforce c (enforce c p) = enforce c p := by
  obtain ⟨pid, pty, sd, lt, g, y, ar, w, pc, prot⟩ := p
  cases lt with
  | true => simp [enforce, clamp_idem]
  | false =>
    simp only [enforce, Bool.false_eq_true, if_false]
    have hw : max c.min_walk_s (max c.min_walk_s w) = max c.min_walk_s w := by
      rw [← max_assoc, max_self]
    simp only [hw]
    set mg := c.min_green_s with hmg
    set Mg := c.max_green_s with hMg
    set S := max c.min_walk_s w + c.ped_clearance_s with hS
    set g1 := max mg (min Mg g) with hg1
    by_cases hcase : g1 < S
    · -- first pass extended green to S; the second clamp cannot exceed S
      simp only [if_pos hcase]
      have hmS : max mg (min Mg S) ≤ S :=
        max_le (le_trans (le_max_left mg (min Mg g)) (le_of_lt hcase)) (min_le_right _ _)
      rcases lt_or_eq_of_le hmS with hlt | heq
      · simp only [if_pos hlt]
      · simp only [heq, lt_self_iff_false, if_false, heq]
    · -- first pass kept the clamped green, which re-clamps to itself
      simp only [if_neg hcase]
      have hid : max mg (min Mg g1) = g1 := clamp_idem mg Mg g
      simp only [hid, if_neg hcase]

/-!
## Conflict-freedom of the signal state machine
-/

/-- The pure signal application never displays conflicting greens, for any
legally-served phase and any step. -/
theorem apply_signals_no_conflict (p : Phase) (step : PhaseStep) (h : phaseOK p) :
    hasConflict (apply_signals p step) = false := by
  obtain ⟨pid, pty, sd, lt, g, y, ar, w, pc, prot⟩ := p
  rcases h with h | h | h <;>
    (simp only at h; subst h) <;> cases step <;> cases lt <;> cases prot <;> rfl

/-- The preemption hold display grants green to a single direction, hence
never to a conflicting pair. -/
theorem preemptionHeads_no_conflict (d : Direction) :
    hasConflict (preemptionHeads d) = false := by
  cases d <;> rfl

/-- Away from step GREEN, the pure signal application grants no movement
(vehicle green or green arrow) to any head. -/
theorem apply_signals_no_grant (p : Phase) (step : PhaseStep) (h : phaseOK p)
    (hstep : step ≠ PhaseStep.GREEN) :
    hasGreenGrant (apply_signals p step) = false := by
  obtain ⟨pid, pty, sd, lt, g, y, ar, w, pc, prot⟩ := p
  cases step with
  | GREEN => exact absurd rfl hstep
  | FLASHING_YELLOW =>
    rcases h with h | h | h <;> (simp only at h; subst h) <;> cases lt <;> cases prot <;> rfl
  | YELLOW =>
    rcases h with h | h | h <;> (simp only at h; subst h) <;> cases lt <;> cases prot <;> rfl
  | ALL_RED =>
    rcases h with h | h | h <;> (simp only at h; subst h) <;> cases lt <;> cases prot <;> rfl

/-- The phase currently selected by the index is always legally served in a
good state (out-of-range access yields the empty-served placeholder). -/
theorem phaseOK_current (s : SignalController) (hp : ∀ p ∈ s.phases, phaseOK p) :
    phaseOK s.current_phase := by
  unfold SignalController.current_phase
  by_cases hlt : s.current_phase_idx < s.phases.length
  · rw [List.getD_eq_getElem s.phases emptyPhase hlt]
    exact hp _ (List.getElem_mem hlt)
  · rw [List.getD_eq_getElem?_getD, List.getElem?_eq_none (by omega), Option.getD_none]
    exact Or.inl rfl

/-- In a good state the heads never show a conflict. -/
theorem goodState_no_conflict (s : SignalController) (h : GoodState s) :
    hasConflict s.signal_heads = false := by
  obtain ⟨hp, hh | ⟨d, hd, _⟩⟩ := h
  · rw [hh]; exact apply_signals_no_conflict _ _ (phaseOK_current s hp)
  · rw [hd]; exact preemptionHeads_no_conflict d

/-- The conflict self-check leaves a conflict-free state untouched. -/
theorem check_conflicts_clean (s : SignalController)
    (h : hasConflict s.signal_heads = false) : s.check_conflicts = s := by
  simp [SignalController.check_conflicts, h]

/-- Advancing a step from a good state yields a good state. -/
theorem goodState_advance (now : ℚ) (s : SignalController)
    (hp : ∀ p ∈ s.phases, phaseOK p) : GoodState (s.advance_step now) := by
  unfold GoodState
  cases hstep : s.current_step with
  | GREEN =>
    simp only [SignalController.advance_step, hstep, ite_self]
    exact ⟨hp, Or.inl (by simp [SignalController.current_phase])⟩
  | FLASHING_YELLOW =>
    simp only [SignalController.advance_step, hstep]
    exact ⟨hp, Or.inl (by simp [SignalController.current_phase])⟩
  | YELLOW =>
    simp only [SignalController.advance_step, hstep]
    exact ⟨hp, Or.inl (by simp [SignalController.current_phase])⟩
  | ALL_RED =>
    simp only [SignalController.advance_step, hstep]
    by_cases hpre : (s.is_preempted && s.preemption_direction.isSome) = true
    · rw [if_pos hpre]
      cases hdir : s.preemption_direction with
      | none => rw [hdir] at hpre; simp at hpre
      | some d =>
        simp only [SignalController.enter_preemption_phase, hdir]
        exact ⟨hp, Or.inr ⟨d, rfl, by trivial⟩⟩
    · rw [if_neg hpre]
      simp only [SignalController.advance_to_next_phase]
      split
      · exact ⟨hp, Or.inl (by simp [SignalController.current_phase])⟩
      · exact ⟨hp, Or.inl (by simp [SignalController.current_phase])⟩

/-- Stepping the state machine preserves the good-state invariant. -/
theorem goodState_step (e : Ev) (s : SignalController) (h : GoodState s) :
    GoodState (stepEv e s) := by
  obtain ⟨hp, hh⟩ := h
  have hnc : hasConflict s.signal_heads = false := goodState_no_conflict s ⟨hp, hh⟩
  cases e with
  | tick now =>
    show GoodState (SignalController.tick now s)
    unfold SignalController.tick
    cases hdur : s.current_step_duration with
    | none =>
      simp only
      rw [check_conflicts_clean s hnc]
      exact ⟨hp, hh⟩
    | some dur =>
      simp only
      by_cases hle : dur ≤ now - s.step_start_time
      · rw [if_pos hle]
        have hadv := goodState_advance now s hp
        rw [check_conflicts_clean _ (goodState_no_conflict _ hadv)]
        exact hadv
      · rw [if_neg hle]
        rw [check_conflicts_clean s hnc]
        exact ⟨hp, hh⟩
  | request now d =>
    show GoodState (s.request_preemption now d)
    unfold GoodState SignalController.request_preemption
    by_cases hpre : s.is_preempted = true
    · rw [if_pos hpre]
      exact ⟨hp, hh⟩
    · rw [if_neg hpre]
      by_cases hc : s.current_step = PhaseStep.GREEN ∨ s.current_step = PhaseStep.FLASHING_YELLOW
      · rw [if_pos hc]
        exact ⟨hp, Or.inl (by simp [SignalController.current_phase])⟩
      · rw [if_neg hc]
        refine ⟨hp, ?_⟩
        rcases hh with hh | ⟨d0, hd0, hs0⟩
        · exact Or.inl hh
        · exact Or.inr ⟨d0, hd0, hs0⟩
  | clearPre =>
    show GoodState s.clear_preemption
    unfold GoodState SignalController.clear_preemption
    refine ⟨hp, ?_⟩
    rcases hh with hh | ⟨d0, hd0, hs0⟩
    · exact Or.inl hh
    · exact Or.inr ⟨d0, hd0, hs0⟩

/-- Every reachable controller state satisfies the good-state invariant. -/
theorem goodState_reachable (s : SignalController) (h : Reachable s) : GoodState s := by
  induction h with
  | init phases t0 hp =>
    exact ⟨hp, Or.inl rfl⟩
  | step e s hs ih => exact goodState_step e s ih

/-- C1: in every controller state reachable by any sequence of ticks,
preemption requests and preemption clears, no conflicting pair of directions
is simultaneously in green_directions (vehicle green or yellow, or a
protected left arrow). -/
theorem no_conflicting_greens (s : SignalController) (hr : Reachable s)
    (d1 d2 : Direction) (hmem : (d1, d2) ∈ conflicting_pairs) :
    ¬(greenDirMem s.signal_heads d1 = true ∧ greenDirMem s.signal_heads d2 = true) := by
  rintro ⟨h1, h2⟩
  have hnc : hasConflict s.signal_heads = false :=
    goodState_no_conflict s (goodState_reachable s hr)
  unfold hasConflict at hnc
  rw [List.any_eq_false] at hnc
  have := hnc (d1, d2) hmem
  simp only [h1, h2, Bool.and_self] at this
  exact this trivial

/-- C1 witness: the invariant instantiated on a fresh standard 4-way
controller and the north/east pair. -/
theorem no_conflicting_greens_witness :
    ¬(greenDirMem (initController (create_standard_4way defaultTiming) 0).signal_heads
        Direction.north = true ∧
      greenDirMem (initController (create_standard_4way defaultTiming) 0).signal_heads
        Direction.east = true) :=
  no_conflicting_greens _ (Reachable.init _ 0 (by decide)) Direction.north Direction.east
    (by decide)

/-- The sub-state can only enter GREEN from ALL_RED and can only enter
ALL_RED from YELLOW, whatever the event. -/
theorem step_order (e : Ev) (s : SignalController) :
    ((stepEv e s).current_step = PhaseStep.GREEN →
      s.current_step = PhaseStep.GREEN ∨ s.current_step = PhaseStep.ALL_RED) ∧
    ((stepEv e s).current_step = PhaseStep.ALL_RED →
      s.current_step = PhaseStep.ALL_RED ∨ s.current_step = PhaseStep.YELLOW) := by
  have hcc : ∀ t : SignalController, t.check_conflicts.current_step = t.current_step := by
    intro t
    unfold SignalController.check_conflicts SignalController.enter_fault_mode
    split <;> rfl
  cases e with
  | tick now =>
    show _ ∧ _
    have hadv : (s.advance_step now).current_step = PhaseStep.GREEN →
        s.current_step = PhaseStep.ALL_RED := by
      intro hg
      cases hstep : s.current_step with
      | GREEN => rw [SignalController.advance_step] at hg; simp [hstep, ite_self] at hg
      | FLASHING_YELLOW => rw [SignalController.advance_step] at hg; simp [hstep] at hg
      | YELLOW => rw [SignalController.advance_step] at hg; simp [hstep] at hg
      | ALL_RED => rfl
    have hadv2 : (s.advance_step now).current_step = PhaseStep.ALL_RED →
        s.current_step = PhaseStep.YELLOW := by
      intro hg
      cases hstep : s.current_step with
      | GREEN => rw [SignalController.advance_step] at hg; simp [hstep, ite_self] at hg
      | FLASHING_YELLOW => rw [SignalController.advance_step] at hg; simp [hstep] at hg
      | YELLOW => rfl
      | ALL_RED =>
        rw [SignalController.advance_step] at hg
        simp only [hstep] at hg
        by_cases hpre : (s.is_preempted && s.preemption_direction.isSome) = true
        · rw [if_pos hpre] at hg
          simp [SignalController.enter_preemption_phase] at hg
        · rw [if_neg hpre] at hg
          rw [SignalController.advance_to_next_phase] at hg
          split at hg <;> simp at hg
    constructor
    · intro hg
      rw [show stepEv (Ev.tick now) s = SignalController.tick now s from rfl,
        SignalController.tick] at hg
      revert hg
      cases hdur : s.current_step_duration with
      | none => intro hg; rw [hcc] at hg; exact Or.inl hg
      | some dur =>
        intro hg
        simp only at hg
        by_cases hle : dur ≤ now - s.step_start_time
        · rw [if_pos hle, hcc] at hg; exact Or.inr (hadv hg)
        · rw [if_neg hle, hcc] at hg; exact Or.inl hg
    · intro hg
      rw [show stepEv (Ev.tick now) s = SignalController.tick now s from rfl,
        SignalController.tick] at hg
      revert hg
      cases hdur : s.current_step_duration with
      | none => intro hg; rw [hcc] at hg; exact Or.inl hg
      | some dur =>
        intro hg
        simp only at hg
        by_cases hle : dur ≤ now - s.step_start_time
        · rw [if_pos hle, hcc] at hg; exact Or.inr (hadv2 hg)
        · rw [if_neg hle, hcc] at hg; exact Or.inl hg
  | request now d =>
    show _ ∧ _
    rw [show stepEv (Ev.request now d) s = s.request_preemption now d from rfl,
      SignalController.request_preemption]
    by_cases hpre : s.is_preempted = true
    · rw [if_pos hpre]
      exact ⟨Or.inl, Or.inl⟩
    · rw [if_neg hpre]
      by_cases hc : s.current_step = PhaseStep.GREEN ∨ s.current_step = PhaseStep.FLASHING_YELLOW
      · rw [if_pos hc]
        exact ⟨fun hg => by simp at hg, fun hg => by simp at hg⟩
      · rw [if_neg hc]
        exact ⟨Or.inl, Or.inl⟩
  | clearPre =>
    exact ⟨Or.inl, Or.inl⟩

/-- C2 (amended): along every run of ticks, preemption requests and clears,
a movement grant (vehicle green or green arrow) is only ever displayed while
the machine sub-state is GREEN, the sub-state enters GREEN only from ALL_RED,
and enters ALL_RED only from YELLOW — so the machine always traverses yellow
then all-red between green periods. (The previously-green direction's own
head, however, need not display yellow: see the counterexample.) -/
theorem clearance_order (s : SignalController) (hr : Reachable s) (e : Ev) :
    (hasGreenGrant (stepEv e s).signal_heads = true →
      (stepEv e s).current_step = PhaseStep.GREEN) ∧
    ((stepEv e s).current_step = PhaseStep.GREEN →
      s.current_step = PhaseStep.GREEN ∨ s.current_step = PhaseStep.ALL_RED) ∧
    ((stepEv e s).current_step = PhaseStep.ALL_RED →
      s.current_step = PhaseStep.ALL_RED ∨ s.current_step = PhaseStep.YELLOW) := by
  refine ⟨?_, (step_order e s).1, (step_order e s).2⟩
  intro hg
  obtain ⟨hp, hh⟩ := goodState_reachable _ (Reachable.step e s hr)
  rcases hh with hh | ⟨d0, hd0, hs0⟩
  · by_contra hne
    rw [hh] at hg
    rw [apply_signals_no_grant _ _ (phaseOK_current _ hp) hne] at hg
    exact Bool.false_ne_true hg
  · exact hs0

/-- C2 witness: the amended clearance property instantiated on a fresh
standard controller and a single tick. -/
theorem clearance_order_witness :
    (hasGreenGrant (stepEv (Ev.tick 0) (initController (create_standard_4way defaultTiming) 0)).signal_heads = true →
      (stepEv (Ev.tick 0) (initController (create_standard_4way defaultTiming) 0)).current_step = PhaseStep.GREEN) ∧
    ((stepEv (Ev.tick 0) (initController (create_standard_4way defaultTiming) 0)).current_step = PhaseStep.GREEN →
      (initController (create_standard_4way defaultTiming) 0).current_step = PhaseStep.GREEN ∨
      (initController (create_standard_4way defaultTiming) 0).current_step = PhaseStep.ALL_RED) ∧
    ((stepEv (Ev.tick 0) (initController (create_standard_4way defaultTiming) 0)).current_step = PhaseStep.ALL_RED →
      (initController (create_standard_4way defaultTiming) 0).current_step = PhaseStep.ALL_RED ∨
      (initController (create_standard_4way defaultTiming) 0).current_step = PhaseStep.YELLOW) :=
  clearance_order _ (Reachable.init _ 0 (by decide)) (Ev.tick 0)

/-- C2 counterexample: east is granted a preemption green (while the N/S
left-turn phase is current), the preemption is cleared and immediately
re-requested; east receives a second, distinct green period while its own
head never displayed yellow (or a yellow arrow) in between — the per-direction
clearance display claimed by the spec is skipped for the preemption direction. -/
theorem preemption_direction_skips_yellow_display :
    ((runEv (initController (create_standard_4way defaultTiming) 0)
        [Ev.request 1 Direction.east, Ev.tick 10, Ev.tick 20]).signal_heads.get
          Direction.east).vehicle_signal = SignalState.GREEN ∧
    ((runEv (initController (create_standard_4way defaultTiming) 0)
        [Ev.request 1 Direction.east, Ev.tick 10, Ev.tick 20, Ev.clearPre,
         Ev.request 21 Direction.east]).signal_heads.get Direction.east =
      { vehicle_signal := SignalState.RED, left_turn_signal := SignalState.RED
        pedestrian_signal := SignalState.DONT_WALK }) ∧
    ((runEv (initController (create_standard_4way defaultTiming) 0)
        [Ev.request 1 Direction.east, Ev.tick 10, Ev.tick 20, Ev.clearPre,
         Ev.request 21 Direction.east, Ev.tick 30]).signal_heads.get Direction.east =
      { vehicle_signal := SignalState.RED, left_turn_signal := SignalState.RED
        pedestrian_signal := SignalState.DONT_WALK }) ∧
    ((runEv (initController (create_standard_4way defaultTiming) 0)
        [Ev.request 1 Direction.east, Ev.tick 10, Ev.tick 20, Ev.clearPre,
         Ev.request 21 Direction.east, Ev.tick 30, Ev.tick 40]).signal_heads.get
          Direction.east).vehicle_signal = SignalState.GREEN :=
  of_decide_eq_true (by with_unfolding_all rfl)

/-- C7 counterexample: entering fault mode does not stop the state machine; a
later tick still advances the sub-state (GREEN to YELLOW here) and reapplies
normal signals. -/
theorem fault_mode_keeps_ticking :
    ((initController (create_standard_4way defaultTiming) 0).enter_fault_mode.current_step =
      PhaseStep.GREEN) ∧
    ((SignalController.tick 100
        (initController (create_standard_4way defaultTiming) 0).enter_fault_mode).current_step =
      PhaseStep.YELLOW) :=
  of_decide_eq_true (by with_unfolding_all rfl)

/-- C7 (amended): entering fault mode forces every signal head to red
(ALL_RED vehicle and left-turn displays, DONT_WALK pedestrian display), in
every state; the machine however does not cease transitions (see the
counterexample), and exit is governed entirely by the conflict monitor's own
latch state. -/
theorem fault_mode_forces_all_red (s : SignalController) (d : Direction) :
    (s.enter_fault_mode.signal_heads.get d).vehicle_signal = SignalState.ALL_RED ∧
    (s.enter_fault_mode.signal_heads.get d).left_turn_signal = SignalState.ALL_RED ∧
    (s.enter_fault_mode.signal_heads.get d).pedestrian_signal = SignalState.DONT_WALK := by
  cases d <;> exact ⟨rfl, rfl, rfl⟩

/-- C10: requesting a preemption while one is already active is a no-op on
the state machine — the whole state (heads, step, phase index, timers and
preemption fields) is unchanged and the new direction is dropped. -/
theorem request_preemption_noop (s : SignalController) (now : ℚ) (d : Direction)
    (h : s.is_preempted = true) : s.request_preemption now d = s := by
  unfold SignalController.request_preemption
  rw [if_pos h]

/-- C10 witness: a second request on a concretely preempted controller is
dropped. -/
theorem request_preemption_noop_witness :
    (runEv (initController (create_standard_4way defaultTiming) 0)
        [Ev.request 1 Direction.east]).request_preemption 2 Direction.north =
      runEv (initController (create_standard_4way defaultTiming) 0)
        [Ev.request 1 Direction.east] :=
  request_preemption_noop _ 2 Direction.north (of_decide_eq_true (by with_unfolding_all rfl))

/-- C5: for every nonempty list of phase demands the computed cycle length
is exactly the claimed Webster rule: min_cycle_s when Y = min(0.90, mean
smoothed DS) is below 0.05, else (1.5·total_lost + 5)/(1 − Y) with
total_lost = N_phases·(yellow + all_red), clamped into
[min_cycle_s, max_cycle_s]. -/
theorem webster_cycle_length (c : TimingConstraints) (demands : List PhaseDemand)
    (h : demands ≠ []) :
    compute_cycle_length c demands = cycle_length_webster c demands := by
  unfold compute_cycle_length cycle_length_webster
  have h1 : 1 ≤ demands.length := List.length_pos.mpr h
  have hlen : max 1 demands.length = demands.length := max_eq_right h1
  rw [hlen]

/-- C5 witness: the Webster rule evaluated on a concrete singleton demand
list. -/
theorem webster_cycle_length_witness :
    compute_cycle_length defaultTiming
        [{ phase_id := 1, total_queue := 0, ideal_green_s := 0
           degree_of_saturation := 0, needs_protected_left := false }] =
      cycle_length_webster defaultTiming
        [{ phase_id := 1, total_queue := 0, ideal_green_s := 0
           degree_of_saturation := 0, needs_protected_left := false }] :=
  webster_cycle_length defaultTiming _ (by simp)

/-- C8: once the monitor has latched a fault (fault_active with a fresh clean
streak), it stays latched through every prefix of fewer than
clean_checks_to_clear clean checks, with consecutive_clean counting them;
the latch clears exactly on the clean check that reaches the threshold; and
any conflicting check resets consecutive_clean to 0, keeps fault_active, and
counts the conflict. -/
theorem fault_latch (m : ConflictMonitor) (sc : SignalController)
    (hf : m.fault_active = true) (hc : m.consecutive_clean = 0)
    (hT : 0 < m.clean_checks_to_clear)
    (hclean : hasConflict sc.signal_heads = false) :
    (∀ j, j < m.clean_checks_to_clear →
      (checkIter m sc j).fault_active = true ∧
      (checkIter m sc j).consecutive_clean = j) ∧
    (checkIter m sc m.clean_checks_to_clear).fault_active = false ∧
    (∀ (m2 : ConflictMonitor) (sc2 : SignalController),
      hasConflict sc2.signal_heads = true →
      (m2.check sc2).1.consecutive_clean = 0 ∧
      (m2.check sc2).1.fault_active = true ∧
      (m2.check sc2).1.conflict_count = m2.conflict_count + 1) := by
  have key : ∀ j, j < m.clean_checks_to_clear →
      checkIter m sc j = { m with consecutive_clean := j } := by
    intro j
    induction j with
    | zero =>
      intro _
      show m = { m with consecutive_clean := 0 }
      cases m
      simp only at hc
      rw [hc]
    | succ k ih =>
      intro hk
      have hk1 : k < m.clean_checks_to_clear := Nat.lt_of_succ_lt hk
      show ((checkIter m sc k).check sc).1 = _
      rw [ih hk1]
      unfold ConflictMonitor.check
      rw [if_neg (by simp [hclean])]
      rw [if_pos (by simp [hf])]
      rw [if_neg (by simp; omega)]
  refine ⟨fun j hj => by rw [key j hj]; exact ⟨hf, rfl⟩, ?_, ?_⟩
  · cases hTe : m.clean_checks_to_clear with
    | zero => omega
    | succ k =>
      show ((checkIter m sc k).check sc).1.fault_active = false
      rw [key k (by omega)]
      unfold ConflictMonitor.check
      rw [if_neg (by simp [hclean])]
      rw [if_pos (by simp [hf])]
      rw [if_pos (by simp [hTe])]
  · intro m2 sc2 hcon
    unfold ConflictMonitor.check
    rw [if_pos (by simp [hcon])]
    by_cases h2 : m2.fault_active = true
    · rw [if_pos h2]
      exact ⟨rfl, rfl, rfl⟩
    · rw [if_neg h2]
      exact ⟨rfl, rfl, rfl⟩

/-- C8 witness: with the default threshold 50 the latch survives 49 clean
checks (streak counting up) and releases exactly on the 50th. -/
theorem fault_latch_witness :
    ((checkIter ⟨true, 1, 0, 50⟩
        (initController (create_standard_4way defaultTiming) 0) 49).fault_active = true ∧
     (checkIter ⟨true, 1, 0, 50⟩
        (initController (create_standard_4way defaultTiming) 0) 49).consecutive_clean = 49) ∧
    (checkIter ⟨true, 1, 0, 50⟩
        (initController (create_standard_4way defaultTiming) 0) 50).fault_active = false := by
  have h := fault_latch ⟨true, 1, 0, 50⟩
    (initController (create_standard_4way defaultTiming) 0) rfl rfl (by decide)
    (by decide)
  exact ⟨h.1 49 (by decide), h.2.1⟩

/-- C9: the preemption manager holds at most one active event: a request
activates immediately (stamping activated_at and driving the state machine)
only when none is active, and otherwise appends to the pending queue leaving
the active event and the state machine untouched; clear stamps cleared_at on
the active event, archives it to history, clears the state machine's
preemption, and then activates the oldest pending event (FIFO) if any. -/
theorem preemption_manager_contract (m : PreemptionManager)
    (sc : SignalController) (now : ℚ) (d : Direction) (hold : ℚ) :
    (m.active_event = none →
      (PreemptionManager.request now d hold m sc).1.active_event =
        some { direction := d, requested_at := now, activated_at := some now
               cleared_at := none, min_hold_s := hold } ∧
      (PreemptionManager.request now d hold m sc).1.pending = m.pending ∧
      (PreemptionManager.request now d hold m sc).2 =
        sc.request_preemption now d) ∧
    (∀ e0, m.active_event = some e0 →
      (PreemptionManager.request now d hold m sc).1.active_event = some e0 ∧
      (PreemptionManager.request now d hold m sc).1.pending =
        m.pending ++ [{ direction := d, requested_at := now, activated_at := none
                        cleared_at := none, min_hold_s := hold }] ∧
      (PreemptionManager.request now d hold m sc).2 = sc) ∧
    (∀ e0, m.active_event = some e0 →
      (PreemptionManager.clear now m sc).1.history =
        m.history ++ [{ e0 with cleared_at := some now }] ∧
      (m.pending = [] →
        (PreemptionManager.clear now m sc).1.active_event = none ∧
        (PreemptionManager.clear now m sc).2 = sc.clear_preemption) ∧
      (∀ e1 rest, m.pending = e1 :: rest →
        (PreemptionManager.clear now m sc).1.active_event =
          some { e1 with activated_at := some now } ∧
        (PreemptionManager.clear now m sc).1.pending = rest ∧
        (PreemptionManager.clear now m sc).2 =
          (sc.clear_preemption).request_preemption now e1.direction)) := by
  refine ⟨?_, ?_, ?_⟩
  · intro h0
    simp [PreemptionManager.request, PreemptionManager.activate, h0]
  · intro e0 h0
    simp [PreemptionManager.request, h0]
  · intro e0 h0
    unfold PreemptionManager.clear
    rw [h0]
    cases hp : m.pending with
    | nil =>
      simp only [hp]
      exact ⟨by trivial, fun _ => ⟨by trivial, by trivial⟩,
        fun e1 rest hco => by simp at hco⟩
    | cons e1 rest =>
      simp only [hp]
      refine ⟨by trivial, fun hco => by simp at hco, fun e1x restx hco => ?_⟩
      obtain ⟨rfl, rfl⟩ : e1x = e1 ∧ restx = rest := by
        constructor <;> injection hco <;> simp_all
      exact ⟨by trivial, by trivial, by trivial⟩

/-- C9 witness: a request on an idle manager activates immediately with the
activation stamped. -/
theorem preemption_manager_contract_witness :
    (PreemptionManager.request 1 Direction.north 10
        { pending := [], active_event := none, history := [], max_hold_s := 30 }
        (initController (create_standard_4way defaultTiming) 0)).1.active_event =
      some { direction := Direction.north, requested_at := 1, activated_at := some 1
             cleared_at := none, min_hold_s := 10 } :=
  ((preemption_manager_contract
      { pending := [], active_event := none, history := [], max_hold_s := 30 }
      (initController (create_standard_4way defaultTiming) 0) 1 Direction.north 10).1
    rfl).1


/-- Monotonicity of the left-turn green clamp. -/
theorem clampL_mono {x y : ℚ} (h : x ≤ y) : clampL x ≤ clampL y :=
  max_le_max (le_refl 8) (min_le_min (le_refl 25) h)

/-- Monotonicity of the through green clamp with pedestrian extension. -/
theorem clampT_mono {x y : ℚ} (h : x ≤ y) : clampT x ≤ clampT y := by
  unfold clampT
  have hc : max 7 (min 60 x) ≤ max 7 (min 60 y) :=
    max_le_max (le_refl 7) (min_le_min (le_refl 60) h)
  by_cases hx : max 7 (min 60 x) < 145/7
  · rw [if_pos hx]
    by_cases hy : max 7 (min 60 y) < 145/7
    · rw [if_pos hy]
    · rw [if_neg hy]
      exact le_of_not_lt hy
  · rw [if_neg hx]
    by_cases hy : max 7 (min 60 y) < 145/7
    · exact absurd (lt_of_le_of_lt hc hy) hx
    · rw [if_neg hy]
      exact hc

/-- The enforcer on phase 1 of the ring only clamps the green. -/
theorem enforce_srPhase1 (g : ℚ) (b : Bool) :
    enforce defaultTiming (srPhase1 g b) = srPhase1 (clampL g) b := by
  simp [enforce, srPhase1, clampL, defaultTiming]

/-- The enforcer on phase 2 of the ring clamps the green and applies the pedestrian extension. -/
theorem enforce_srPhase2 (g : ℚ) (b : Bool) :
    enforce defaultTiming (srPhase2 g b) = srPhase2 (clampT g) b := by
  simp [enforce, srPhase2, clampT, defaultTiming, TimingConstraints.ped_clearance_s]
  norm_num

/-- The enforcer on phase 3 of the ring only clamps the green. -/
theorem enforce_srPhase3 (g : ℚ) (b : Bool) :
    enforce defaultTiming (srPhase3 g b) = srPhase3 (clampL g) b := by
  simp [enforce, srPhase3, clampL, defaultTiming]

/-- The enforcer on phase 4 of the ring clamps the green and applies the pedestrian extension. -/
theorem enforce_srPhase4 (g : ℚ) (b : Bool) :
    enforce defaultTiming (srPhase4 g b) = srPhase4 (clampT g) b := by
  simp [enforce, srPhase4, clampT, defaultTiming, TimingConstraints.ped_clearance_s]
  norm_num

/-- Green projection of phase 1. -/
theorem srPhase1_green (g : ℚ) (b : Bool) : (srPhase1 g b).green_time_s = g := rfl

/-- Green projection of phase 2. -/
theorem srPhase2_green (g : ℚ) (b : Bool) : (srPhase2 g b).green_time_s = g := rfl

/-- Green projection of phase 3. -/
theorem srPhase3_green (g : ℚ) (b : Bool) : (srPhase3 g b).green_time_s = g := rfl

/-- Green projection of phase 4. -/
theorem srPhase4_green (g : ℚ) (b : Bool) : (srPhase4 g b).green_time_s = g := rfl

/-- Updating the green of phase 1. -/
theorem srPhase1_set_green (g x : ℚ) (b : Bool) :
    ({ srPhase1 g b with green_time_s := x } : Phase) = srPhase1 x b := rfl

/-- Updating the green of phase 2. -/
theorem srPhase2_set_green (g x : ℚ) (b : Bool) :
    ({ srPhase2 g b with green_time_s := x } : Phase) = srPhase2 x b := rfl

/-- Updating the green of phase 3. -/
theorem srPhase3_set_green (g x : ℚ) (b : Bool) :
    ({ srPhase3 g b with green_time_s := x } : Phase) = srPhase3 x b := rfl

/-- Updating the green of phase 4. -/
theorem srPhase4_set_green (g x : ℚ) (b : Bool) :
    ({ srPhase4 g b with green_time_s := x } : Phase) = srPhase4 x b := rfl

/-- Scaling then re-enforcing the standard ring, phase by phase. -/
theorem scaleGreens_sr (r x1 x2 x3 x4 : ℚ) (b1 b2 b3 b4 : Bool) :
    scaleGreens defaultTiming r
      [srPhase1 x1 b1, srPhase2 x2 b2, srPhase3 x3 b3, srPhase4 x4 b4] =
    [srPhase1 (clampL (x1 * r)) b1, srPhase2 (clampT (x2 * r)) b2,
     srPhase3 (clampL (x3 * r)) b3, srPhase4 (clampT (x4 * r)) b4] := by
  simp only [scaleGreens, List.map, srPhase1_set_green, srPhase2_set_green,
    srPhase3_set_green, srPhase4_set_green, srPhase1_green, srPhase2_green,
    srPhase3_green, srPhase4_green,
    enforce_srPhase1, enforce_srPhase2, enforce_srPhase3, enforce_srPhase4]

/-- Green lookup for the through phases of the standard ring. -/
theorem phaseGreen_sr (y1 y2 y3 y4 : ℚ) (b1 b2 b3 b4 : Bool) :
    phaseGreen [srPhase1 y1 b1, srPhase2 y2 b2, srPhase3 y3 b3, srPhase4 y4 b4] 2 = y2 ∧
    phaseGreen [srPhase1 y1 b1, srPhase2 y2 b2, srPhase3 y3 b3, srPhase4 y4 b4] 4 = y4 := by
  constructor <;> rfl

/-- Green lookup for the left-turn phases of the standard ring. -/
theorem phaseGreen_sr13 (y1 y2 y3 y4 : ℚ) (b1 b2 b3 b4 : Bool) :
    phaseGreen [srPhase1 y1 b1, srPhase2 y2 b2, srPhase3 y3 b3, srPhase4 y4 b4] 1 = y1 ∧
    phaseGreen [srPhase1 y1 b1, srPhase2 y2 b2, srPhase3 y3 b3, srPhase4 y4 b4] 3 = y3 := by
  constructor <;> rfl

/-- The fixed (yellow + all-red) time of the enforced standard ring is 26 s. -/
theorem fixedTime_sr (y1 y2 y3 y4 : ℚ) (b1 b2 b3 b4 : Bool) :
    fixedTime [srPhase1 y1 b1, srPhase2 y2 b2, srPhase3 y3 b3, srPhase4 y4 b4] = 26 := by
  simp [fixedTime, srPhase1, srPhase2, srPhase3, srPhase4, defaultTiming]
  norm_num

/-- Normal form of the through weight (the permissive-left override never fires). -/
theorem wT_eq (pr : Bool) (tq : ℕ) (ig : ℚ) :
    wT pr tq ig = if tq = 0 then 7 else max 7 ig := by
  simp [wT, defaultTiming]

/-- Normal form of the left-turn weight. -/
theorem wL_eq (pr : Bool) (tq : ℕ) (ig : ℚ) :
    wL pr tq ig = if pr then (if tq = 0 then 7 else max 7 ig) else 4 := by
  cases pr
  · simp [wL, defaultTiming]
    norm_num
  · simp [wL, defaultTiming]

/-- Through weights are monotone in total queue and ideal green. -/
theorem wT_mono {tq2 tq4 : ℕ} {ig2 ig4 : ℚ} (pr2 pr4 : Bool)
    (htq : tq4 ≤ tq2) (hig : ig4 ≤ ig2) : wT pr4 tq4 ig4 ≤ wT pr2 tq2 ig2 := by
  rw [wT_eq, wT_eq]
  by_cases h4 : tq4 = 0
  · rw [if_pos h4]
    split
    · exact le_refl 7
    · exact le_max_left 7 ig2
  · have h2 : ¬ tq2 = 0 := by omega
    rw [if_neg h4, if_neg h2]
    exact max_le_max (le_refl 7) hig

/-- Left-turn weights are monotone in total queue and ideal green, across the protected threshold. -/
theorem wL_mono {tq1 tq3 : ℕ} {ig1 ig3 : ℚ}
    (htq : tq3 ≤ tq1) (hig : ig3 ≤ ig1) :
    wL (decide (3 ≤ tq3)) tq3 ig3 ≤ wL (decide (3 ≤ tq1)) tq1 ig1 := by
  rw [wL_eq, wL_eq]
  simp only [decide_eq_true_eq]
  by_cases h3 : 3 ≤ tq3
  · have h1 : 3 ≤ tq1 := le_trans h3 htq
    rw [if_pos h3, if_pos h1, if_neg (by omega : ¬ tq3 = 0), if_neg (by omega : ¬ tq1 = 0)]
    exact max_le_max (le_refl 7) hig
  · rw [if_neg h3]
    by_cases h1 : 3 ≤ tq1
    · rw [if_pos h1, if_neg (by omega : ¬ tq1 = 0)]
      exact le_trans (by norm_num) (le_max_left 7 ig1)
    · rw [if_neg h1]

/-- Clearance demand is nonnegative. -/
theorem laneClear_nonneg (sat : ℚ) (hs : 0 < sat) (n : ℕ) : 0 ≤ laneClear sat n := by
  unfold laneClear
  split
  · exact le_refl 0
  · have h1 : (0:ℚ) ≤ (n:ℚ) / (sat / 3600) :=
      div_nonneg (Nat.cast_nonneg n) (by positivity)
    linarith

/-- Clearance demand is monotone in the queue. -/
theorem laneClear_mono (sat : ℚ) (hs : 0 < sat) {a b : ℕ} (h : a ≤ b) :
    laneClear sat a ≤ laneClear sat b := by
  unfold laneClear
  by_cases ha : a ≤ 0
  · rw [if_pos ha]
    split
    · exact le_refl 0
    · have h1 : (0:ℚ) ≤ (b:ℚ) / (sat / 3600) :=
        div_nonneg (Nat.cast_nonneg b) (by positivity)
      linarith
  · have hb : ¬ b ≤ 0 := by omega
    rw [if_neg ha, if_neg hb]
    have h1 : (a:ℚ) / (sat / 3600) ≤ (b:ℚ) / (sat / 3600) := by
      apply div_le_div_of_nonneg_right ?_ (by positivity)
      · exact_mod_cast h
    linarith

/-- The critical (max over served directions) clearance demand is monotone in the critical queue. -/
theorem ig_mono (sat : ℚ) (hs : 0 < sat) {a b a2 b2 : ℕ} (h : max a2 b2 ≤ max a b) :
    max (max 0 (laneClear sat a2)) (laneClear sat b2) ≤
      max (max 0 (laneClear sat a)) (laneClear sat b) := by
  have key : ∀ n : ℕ, n ≤ max a b →
      laneClear sat n ≤ max (max 0 (laneClear sat a)) (laneClear sat b) := by
    intro n hn
    have h1 : laneClear sat n ≤ laneClear sat (max a b) := laneClear_mono sat hs hn
    rcases max_choice a b with hm | hm
    · rw [hm] at h1
      exact le_trans h1 (le_max_of_le_left (le_max_right 0 _))
    · rw [hm] at h1
      exact le_trans h1 (le_max_right _ _)
  apply max_le
  · apply max_le
    · exact le_trans (le_max_left 0 _) (le_max_left _ _)
    · exact key a2 (le_trans (le_max_left a2 b2) h)
  · exact key b2 (le_trans (le_max_right a2 b2) h)

/-- The guarded total weight is positive. -/
theorem srTWg_pos (q : Direction → LaneType → ℕ) : 0 < srTWg q := by
  unfold srTWg
  split
  · norm_num
  · exact lt_of_not_le (by assumption)

/-- The available green is nonnegative. -/
theorem srAV_nonneg (q : Direction → LaneType → ℕ) (prev : ℕ → Option ℚ)
    (g1 g2 g3 g4 : ℚ) : 0 ≤ srAV q prev g1 g2 g3 g4 :=
  le_max_left 0 _

/-- Pairwise monotonicity of the enforced cycle on the standard ring: a same-type phase given at least as much allocated green keeps at least as much enforced green, through every rescaling branch. -/
theorem enforce_cycle_sr_pairs (x1 x2 x3 x4 : ℚ) (b1 b2 b3 b4 : Bool) :
    (x4 ≤ x2 →
      phaseGreen (enforce_cycle defaultTiming
        [srPhase1 x1 b1, srPhase2 x2 b2, srPhase3 x3 b3, srPhase4 x4 b4]) 4 ≤
      phaseGreen (enforce_cycle defaultTiming
        [srPhase1 x1 b1, srPhase2 x2 b2, srPhase3 x3 b3, srPhase4 x4 b4]) 2) ∧
    (x2 ≤ x4 →
      phaseGreen (enforce_cycle defaultTiming
        [srPhase1 x1 b1, srPhase2 x2 b2, srPhase3 x3 b3, srPhase4 x4 b4]) 2 ≤
      phaseGreen (enforce_cycle defaultTiming
        [srPhase1 x1 b1, srPhase2 x2 b2, srPhase3 x3 b3, srPhase4 x4 b4]) 4) ∧
    (x3 ≤ x1 →
      phaseGreen (enforce_cycle defaultTiming
        [srPhase1 x1 b1, srPhase2 x2 b2, srPhase3 x3 b3, srPhase4 x4 b4]) 3 ≤
      phaseGreen (enforce_cycle defaultTiming
        [srPhase1 x1 b1, srPhase2 x2 b2, srPhase3 x3 b3, srPhase4 x4 b4]) 1) ∧
    (x1 ≤ x3 →
      phaseGreen (enforce_cycle defaultTiming
        [srPhase1 x1 b1, srPhase2 x2 b2, srPhase3 x3 b3, srPhase4 x4 b4]) 1 ≤
      phaseGreen (enforce_cycle defaultTiming
        [srPhase1 x1 b1, srPhase2 x2 b2, srPhase3 x3 b3, srPhase4 x4 b4]) 3) := by
  unfold enforce_cycle extend_to_minimum reduce_to_maximum
  simp only [List.map, enforce_srPhase1, enforce_srPhase2, enforce_srPhase3,
    enforce_srPhase4, fixedTime_sr]
  set t := totalCycleTime [srPhase1 (clampL x1) b1, srPhase2 (clampT x2) b2,
    srPhase3 (clampL x3) b3, srPhase4 (clampT x4) b4] with ht
  split
  · split
    · simp only [(phaseGreen_sr _ _ _ _ b1 b2 b3 b4).1, (phaseGreen_sr _ _ _ _ b1 b2 b3 b4).2,
        (phaseGreen_sr13 _ _ _ _ b1 b2 b3 b4).1, (phaseGreen_sr13 _ _ _ _ b1 b2 b3 b4).2]
      exact ⟨fun h => clampT_mono h, fun h => clampT_mono h,
        fun h => clampL_mono h, fun h => clampL_mono h⟩
    · rw [scaleGreens_sr]
      simp only [(phaseGreen_sr _ _ _ _ b1 b2 b3 b4).1, (phaseGreen_sr _ _ _ _ b1 b2 b3 b4).2,
        (phaseGreen_sr13 _ _ _ _ b1 b2 b3 b4).1, (phaseGreen_sr13 _ _ _ _ b1 b2 b3 b4).2]
      have hr : (0:ℚ) ≤ (defaultTiming.min_cycle_s - 26) / (t - 26) := by
        apply div_nonneg
        · norm_num [defaultTiming]
        · linarith [lt_of_not_le (by assumption : ¬ t - 26 ≤ 0)]
      exact ⟨fun h => clampT_mono (mul_le_mul_of_nonneg_right (clampT_mono h) hr),
        fun h => clampT_mono (mul_le_mul_of_nonneg_right (clampT_mono h) hr),
        fun h => clampL_mono (mul_le_mul_of_nonneg_right (clampL_mono h) hr),
        fun h => clampL_mono (mul_le_mul_of_nonneg_right (clampL_mono h) hr)⟩
  · split
    · split
      · simp only [(phaseGreen_sr _ _ _ _ b1 b2 b3 b4).1, (phaseGreen_sr _ _ _ _ b1 b2 b3 b4).2,
          (phaseGreen_sr13 _ _ _ _ b1 b2 b3 b4).1, (phaseGreen_sr13 _ _ _ _ b1 b2 b3 b4).2]
        exact ⟨fun h => clampT_mono h, fun h => clampT_mono h,
          fun h => clampL_mono h, fun h => clampL_mono h⟩
      · rw [scaleGreens_sr]
        simp only [(phaseGreen_sr _ _ _ _ b1 b2 b3 b4).1, (phaseGreen_sr _ _ _ _ b1 b2 b3 b4).2,
          (phaseGreen_sr13 _ _ _ _ b1 b2 b3 b4).1, (phaseGreen_sr13 _ _ _ _ b1 b2 b3 b4).2]
        have hr : (0:ℚ) ≤ (defaultTiming.max_cycle_s - 26) / (t - 26) := by
          apply div_nonneg
          · norm_num [defaultTiming]
          · linarith [lt_of_not_le (by assumption : ¬ t - 26 ≤ 0)]
        exact ⟨fun h => clampT_mono (mul_le_mul_of_nonneg_right (clampT_mono h) hr),
          fun h => clampT_mono (mul_le_mul_of_nonneg_right (clampT_mono h) hr),
          fun h => clampL_mono (mul_le_mul_of_nonneg_right (clampL_mono h) hr),
          fun h => clampL_mono (mul_le_mul_of_nonneg_right (clampL_mono h) hr)⟩
    · simp only [(phaseGreen_sr _ _ _ _ b1 b2 b3 b4).1, (phaseGreen_sr _ _ _ _ b1 b2 b3 b4).2,
        (phaseGreen_sr13 _ _ _ _ b1 b2 b3 b4).1, (phaseGreen_sr13 _ _ _ _ b1 b2 b3 b4).2]
      exact ⟨fun h => clampT_mono h, fun h => clampT_mono h,
        fun h => clampL_mono h, fun h => clampL_mono h⟩

/-- The full cycle-boundary recomputation on the standard ring is, definitionally, the enforcement of the ring with the proportionally allocated greens and fresh protected-left flags. -/
theorem compute_and_apply_sr (q : Direction → LaneType → ℕ) (prev : ℕ → Option ℚ)
    (g1 g2 g3 g4 : ℚ) :
    compute_and_apply defaultTiming (create_standard_intersection q) prev
      (standardRingGreens g1 g2 g3 g4) =
    enforce_cycle defaultTiming
      [srPhase1 (wL (prL1 q) (tqL1 q) (igL1 q) / srTWg q * srAV q prev g1 g2 g3 g4) (prL1 q),
       srPhase2 (wT false (tqT2 q) (igT2 q) / srTWg q * srAV q prev g1 g2 g3 g4) false,
       srPhase3 (wL (prL3 q) (tqL3 q) (igL3 q) / srTWg q * srAV q prev g1 g2 g3 g4) (prL3 q),
       srPhase4 (wT false (tqT4 q) (igT4 q) / srTWg q * srAV q prev g1 g2 g3 g4) false] := rfl
/-- C6 (amended): for any two phases of the same type in the standard ring,
if one phase dominates the other in both total queue and critical
(maximum per-direction) lane queue at the cycle boundary, then the plan
computed by the adaptive engine and applied via the enforcer gives it at
least as much green — for any starting greens and any smoothed-DS history.
(Total-queue dominance alone is not sufficient: see the counterexample.) -/
theorem adaptive_responsiveness (q : Direction → LaneType → ℕ)
    (prev : ℕ → Option ℚ) (g1 g2 g3 g4 : ℚ) :
    (max (q Direction.east LaneType.THROUGH) (q Direction.west LaneType.THROUGH) ≤
        max (q Direction.north LaneType.THROUGH) (q Direction.south LaneType.THROUGH) →
      q Direction.east LaneType.THROUGH + q Direction.west LaneType.THROUGH ≤
        q Direction.north LaneType.THROUGH + q Direction.south LaneType.THROUGH →
      phaseGreen (compute_and_apply defaultTiming (create_standard_intersection q) prev
        (standardRingGreens g1 g2 g3 g4)) 4 ≤
      phaseGreen (compute_and_apply defaultTiming (create_standard_intersection q) prev
        (standardRingGreens g1 g2 g3 g4)) 2) ∧
    (max (q Direction.north LaneType.THROUGH) (q Direction.south LaneType.THROUGH) ≤
        max (q Direction.east LaneType.THROUGH) (q Direction.west LaneType.THROUGH) →
      q Direction.north LaneType.THROUGH + q Direction.south LaneType.THROUGH ≤
        q Direction.east LaneType.THROUGH + q Direction.west LaneType.THROUGH →
      phaseGreen (compute_and_apply defaultTiming (create_standard_intersection q) prev
        (standardRingGreens g1 g2 g3 g4)) 2 ≤
      phaseGreen (compute_and_apply defaultTiming (create_standard_intersection q) prev
        (standardRingGreens g1 g2 g3 g4)) 4) ∧
    (max (q Direction.east LaneType.LEFT_TURN) (q Direction.west LaneType.LEFT_TURN) ≤
        max (q Direction.north LaneType.LEFT_TURN) (q Direction.south LaneType.LEFT_TURN) →
      q Direction.east LaneType.LEFT_TURN + q Direction.west LaneType.LEFT_TURN ≤
        q Direction.north LaneType.LEFT_TURN + q Direction.south LaneType.LEFT_TURN →
      phaseGreen (compute_and_apply defaultTiming (create_standard_intersection q) prev
        (standardRingGreens g1 g2 g3 g4)) 3 ≤
      phaseGreen (compute_and_apply defaultTiming (create_standard_intersection q) prev
        (standardRingGreens g1 g2 g3 g4)) 1) ∧
    (max (q Direction.north LaneType.LEFT_TURN) (q Direction.south LaneType.LEFT_TURN) ≤
        max (q Direction.east LaneType.LEFT_TURN) (q Direction.west LaneType.LEFT_TURN) →
      q Direction.north LaneType.LEFT_TURN + q Direction.south LaneType.LEFT_TURN ≤
        q Direction.east LaneType.LEFT_TURN + q Direction.west LaneType.LEFT_TURN →
      phaseGreen (compute_and_apply defaultTiming (create_standard_intersection q) prev
        (standardRingGreens g1 g2 g3 g4)) 1 ≤
      phaseGreen (compute_and_apply defaultTiming (create_standard_intersection q) prev
        (standardRingGreens g1 g2 g3 g4)) 3) := by
  rw [compute_and_apply_sr]
  have hTW := srTWg_pos q
  have hAV := srAV_nonneg q prev g1 g2 g3 g4
  refine ⟨fun hmax htot => ?_, fun hmax htot => ?_, fun hmax htot => ?_,
    fun hmax htot => ?_⟩
  · refine (enforce_cycle_sr_pairs _ _ _ _ _ _ _ _).1 ?_
    apply mul_le_mul_of_nonneg_right ?_ hAV
    apply div_le_div_of_nonneg_right ?_ (le_of_lt hTW)
    have htq : tqT4 q ≤ tqT2 q := by unfold tqT4 tqT2; omega
    have hig : igT4 q ≤ igT2 q := ig_mono 1800 (by norm_num) hmax
    exact wT_mono false false htq hig
  · refine (enforce_cycle_sr_pairs _ _ _ _ _ _ _ _).2.1 ?_
    apply mul_le_mul_of_nonneg_right ?_ hAV
    apply div_le_div_of_nonneg_right ?_ (le_of_lt hTW)
    have htq : tqT2 q ≤ tqT4 q := by unfold tqT4 tqT2; omega
    have hig : igT2 q ≤ igT4 q := ig_mono 1800 (by norm_num) hmax
    exact wT_mono false false htq hig
  · refine (enforce_cycle_sr_pairs _ _ _ _ _ _ _ _).2.2.1 ?_
    apply mul_le_mul_of_nonneg_right ?_ hAV
    apply div_le_div_of_nonneg_right ?_ (le_of_lt hTW)
    have htq : tqL3 q ≤ tqL1 q := by unfold tqL3 tqL1; omega
    have hig : igL3 q ≤ igL1 q := ig_mono 1600 (by norm_num) hmax
    show wL (prL3 q) (tqL3 q) (igL3 q) ≤ wL (prL1 q) (tqL1 q) (igL1 q)
    unfold prL1 prL3
    exact wL_mono htq hig
  · refine (enforce_cycle_sr_pairs _ _ _ _ _ _ _ _).2.2.2 ?_
    apply mul_le_mul_of_nonneg_right ?_ hAV
    apply div_le_div_of_nonneg_right ?_ (le_of_lt hTW)
    have htq : tqL1 q ≤ tqL3 q := by unfold tqL3 tqL1; omega
    have hig : igL1 q ≤ igL3 q := ig_mono 1600 (by norm_num) hmax
    show wL (prL1 q) (tqL1 q) (igL1 q) ≤ wL (prL3 q) (tqL3 q) (igL3 q)
    unfold prL1 prL3
    exact wL_mono htq hig

/-- C6 witness: with N/S through queues 5 and 5 dominating E/W through
queues 3 and 3 in both total and critical lane, the N/S through phase
receives at least as much green. -/
theorem adaptive_responsiveness_witness :
    phaseGreen (compute_and_apply defaultTiming
      (create_standard_intersection (fun d lt =>
        match d, lt with
        | Direction.north, LaneType.THROUGH => 5
        | Direction.south, LaneType.THROUGH => 5
        | Direction.east, LaneType.THROUGH => 3
        | Direction.west, LaneType.THROUGH => 3
        | _, _ => 0)) (fun _ => none) (standardRingGreens 8 7 8 7)) 4 ≤
    phaseGreen (compute_and_apply defaultTiming
      (create_standard_intersection (fun d lt =>
        match d, lt with
        | Direction.north, LaneType.THROUGH => 5
        | Direction.south, LaneType.THROUGH => 5
        | Direction.east, LaneType.THROUGH => 3
        | Direction.west, LaneType.THROUGH => 3
        | _, _ => 0)) (fun _ => none) (standardRingGreens 8 7 8 7)) 2 :=
  (adaptive_responsiveness _ _ 8 7 8 7).1 (by decide) (by decide)

set_option maxRecDepth 4000 in
/-- C6 counterexample: the total-queue form of the claim is false. With
through queues N=5, S=5 (total 10) against E=8, W=0 (total 8), the N/S
through phase (same type as E/W through) has the strictly larger total
queue but receives strictly less green, because the allocation weighs the
critical lane (max per-direction queue: 5 versus 8), not the total. -/
theorem adaptive_responsiveness_counterexample :
    demandQueue (compute_demands defaultTiming (create_standard_intersection qcex)
      (fun _ => none) (create_standard_4way defaultTiming)).1 2 = 10 ∧
    demandQueue (compute_demands defaultTiming (create_standard_intersection qcex)
      (fun _ => none) (create_standard_4way defaultTiming)).1 4 = 8 ∧
    phaseGreen (compute_and_apply defaultTiming (create_standard_intersection qcex)
      (fun _ => none) (create_standard_4way defaultTiming)) 2 <
    phaseGreen (compute_and_apply defaultTiming (create_standard_intersection qcex)
      (fun _ => none) (create_standard_4way defaultTiming)) 4 :=
  of_decide_eq_true (by with_unfolding_all rfl)

end TrafficCtl
